import Mathlib

/-!
Verification development for `src/discord_installer.py` (retired64/discord-updater).

The file shallowly embeds the operations of the installer that the claims
talk about:

* `validate_tar_file` — `SystemUtils.validate_tar_file`;
* `get_latest_version_info` — `DiscordDownloader.get_latest_version_info`,
  including a faithful model of the Python regex search
  `re.search(r'discord-([0-9.]+)\.tar\.gz', final_url)`;
* `dlRun` — `DiscordDownloader.run` together with `download_discord`
  (chunked transfer, cooperative cancellation flag, terminal signal);
* `find_discord_tar` — `DiscordInstaller.find_discord_tar`
  (glob listing sorted by mtime with Python's stable sort);
* `runScript` — the rendered bash transaction `INSTALL_SCRIPT_TEMPLATE`
  under a single-fault model (exactly one injected command failure; the
  commands of the ERR trap themselves succeed);
* `installRun`, `onProcessFinished`, `onTimeout` — `DiscordInstaller`
  (pkexec launch, completion/timeout callbacks, `_cleanup`).
-/

namespace DiscordInstall

/-! ## SystemUtils.validate_tar_file

The archive argument abstracts the result of `tarfile.open(tar_path, 'r:gz')`:
`none` when opening raises (missing file, unreadable, not gzip, corrupt),
`some members` when the archive opens and lists its members. -/

/-- Model of `SystemUtils.validate_tar_file`: `False` when opening raises,
`False` when the member list is empty, `True` otherwise. -/
def validate_tar_file (archive : Option (List Nat)) : Bool :=
  match archive with
  | none => false
  | some members => if members.length = 0 then false else true

/-! ## Version resolution (DiscordDownloader.get_latest_version_info)

The Python code runs `re.search(r'discord-([0-9.]+)\.tar\.gz', final_url)`.
We embed that exact regex over `List Char`: leftmost match of the literal
`discord-`, a greedy nonempty run over the class `[0-9.]`, then the literal
`.tar.gz`, with backtracking on the run length. -/

/-- Character class `[0-9.]` of the version-extraction regex. -/
def isVchar (c : Char) : Bool := c.isDigit || c == '.'

/-- The literal head of the regex, `discord-`. -/
def pat : List Char := ['d', 'i', 's', 'c', 'o', 'r', 'd', '-']

/-- The literal tail of the regex, `.tar.gz`. -/
def suf : List Char := ['.', 't', 'a', 'r', '.', 'g', 'z']

/-- Boolean test that `p` is an initial segment of `s`. -/
def begins : List Char → List Char → Bool
  | [], _ => true
  | _ :: _, [] => false
  | a :: as, b :: bs => a == b && begins as bs

/-- Greedy backtracking over the group length: try `n, n-1, ..., 1` characters
for the `[0-9.]+` group, requiring the remainder to start with `.tar.gz`. -/
def tryLens (s : List Char) : Nat → Option (List Char)
  | 0 => none
  | n + 1 =>
    if (s.take (n + 1)).all isVchar && begins suf (s.drop (n + 1)) then
      some (s.take (n + 1))
    else tryLens s n

/-- Match `([0-9.]+)\.tar\.gz` at the start of `s`, greedily. -/
def matchVer (s : List Char) : Option (List Char) :=
  tryLens s (s.takeWhile isVchar).length

/-- Leftmost search for `discord-([0-9.]+)\.tar\.gz`; returns the captured
group of the leftmost (then greedy) match, as Python `re.search` does. -/
def searchDiscordVer : List Char → Option (List Char)
  | [] => none
  | c :: rest =>
    if begins pat (c :: rest) then
      match matchVer ((c :: rest).drop pat.length) with
      | some g => some g
      | none => searchDiscordVer rest
    else searchDiscordVer rest

/-- Model of `DiscordDownloader.get_latest_version_info`. The argument is the
final URL of the redirect-following HEAD request (`none` when the request
raises). Returns `(final_url, version)` when the regex matches, `none`
otherwise — there is no fallback version. -/
def get_latest_version_info (finalUrl : Option String) : Option (String × String) :=
  match finalUrl with
  | none => none
  | some url =>
    match searchDiscordVer url.toList with
    | some g => some (url, String.mk g)
    | none => none

/-- The spec invariant on version tags: matches the anchored regex
`[0-9]+(\.[0-9]+)*` in full — nonempty digit groups separated by single
dots (no leading, trailing, or doubled dots). -/
def versionWF (v : String) : Bool :=
  (v.toList.splitOn '.').all fun g => !g.isEmpty && g.all Char.isDigit

example : get_latest_version_info
    (some "https://dl.discordapp.net/apps/linux/0.0.27/discord-0.0.27.tar.gz")
    = some ("https://dl.discordapp.net/apps/linux/0.0.27/discord-0.0.27.tar.gz", "0.0.27") := by
  decide

example : get_latest_version_info (some "https://discord.com/api/download") = none := by decide

example : get_latest_version_info (some "https://x/discord-1..tar.gz")
    = some ("https://x/discord-1..tar.gz", "1.") := by decide

example : versionWF "0.0.27" = true := by decide
example : versionWF "1." = false := by decide

/-! ## Downloader worker (DiscordDownloader.run / download_discord)

The worker reads the cooperative flag `self.should_cancel` at a sequence of
observation points: point `0` is the check right after version resolution
(line `if self.should_cancel: return`), points `1, ..., n` are the chunk
boundaries (the check at the top of each `iter_content` iteration),
and point `n + 1` is the final `self.should_cancel` read in `run`.
`cancelIdx = some j` means the flag becomes true just before point `j`
(so it reads true at every later point); the flag is never reset. -/

/-- Events the downloader emits: `progress_updated`, `version_detected`, and
the terminal `download_completed` signal. Files are identified by their byte
size, so a success event carries `some size`. -/
inductive DEvent where
  | progressEvt (pct : Nat) : DEvent
  | versionEvt (v : String) : DEvent
  | completedEvt (success : Bool) (filepath : Option Nat) (err : String) : DEvent
deriving DecidableEq

/-- Whether the cancellation flag reads true at observation point `b`. -/
def cancelObserved (cIdx : Option Nat) (b : Nat) : Bool :=
  match cIdx with
  | some j => decide (j ≤ b)
  | none => false

/-- Whether the transfer raises at boundary `b`: `eIdx = some e` means the
`iter_content` fetch raises (network/read error) at the first boundary
reached after `e`; the fetch happens before the body of the iteration, so
it precedes that boundary's cancellation check.  The raise lands in the
`except` handlers of `download_discord`, which return `None` WITHOUT
deleting the partial file. -/
def errObserved (eIdx : Option Nat) (b : Nat) : Bool :=
  match eIdx with
  | some e => decide (e ≤ b)
  | none => false

/-- The chunk loop of `download_discord`: fetches the next chunk (which can
raise into the `except` branches, leaving the partial file on disk),
checks the cancellation flag, skips empty chunks (`if chunk:`), writes and
reports band progress otherwise; after the loop (where the end-of-stream
fetch can also raise) it emits the 95% event and applies the
exists-and-nonempty check.  Returns
`(file on disk, value returned by download_discord, events)`. -/
def dlLoop (cIdx eIdx : Option Nat) (total : Nat) :
    List Nat → Nat → Nat → Option Nat × Option Nat × List DEvent
  | [], b, written =>
    if errObserved eIdx b then (some written, none, [])
    else
      (some written, if written > 0 then some written else none, [DEvent.progressEvt 95])
  | c :: rest, b, written =>
    if errObserved eIdx b then (some written, none, [])
    else if cancelObserved cIdx b then (none, none, [])
    else if c > 0 then
      let w := written + c
      let out := dlLoop cIdx eIdx total rest (b + 1) w
      (out.1, out.2.1,
        (if total > 0 then [DEvent.progressEvt (10 + 80 * w / total)] else []) ++ out.2.2)
    else
      dlLoop cIdx eIdx total rest (b + 1) written

/-- Model of `DiscordDownloader.download_discord`: the HTTP body arrives as
`chunks`; `total` is the `content-length` header, `0` when absent, exactly
as `int(r.headers.get('content-length', 0))`; `eIdx` injects a transfer
exception, answered by the `except` handlers with `return None` and no
cleanup of the partial file. -/
def download_discord (cIdx eIdx : Option Nat) (total : Nat) (chunks : List Nat) :
    Option Nat × Option Nat × List DEvent :=
  let out := dlLoop cIdx eIdx total chunks 1 0
  (out.1, out.2.1, DEvent.progressEvt 10 :: out.2.2)

/-- One run of the downloader thread: the resolved final URL (HEAD outcome),
the content length header, the body chunks, the cancellation point, and
the transfer-exception point (`none` for an exception-free transfer). -/
structure DlInput where
  finalUrl : Option String
  contentLength : Nat
  chunks : List Nat
  cancelIdx : Option Nat
  errIdx : Option Nat
deriving DecidableEq

/-- Model of `DiscordDownloader.run`: resolve the version, check the flag,
download, then emit exactly the terminal signal the code emits on each
branch. Returns `(file left on disk, events in emission order)`. -/
def dlRun (w : DlInput) : Option Nat × List DEvent :=
  match get_latest_version_info w.finalUrl with
  | none =>
    (none, [DEvent.progressEvt 5,
            DEvent.completedEvt false none "No se pudo detectar la última versión de Discord"])
  | some (_, v) =>
    if cancelObserved w.cancelIdx 0 then
      (none, [DEvent.progressEvt 5, DEvent.versionEvt v])
    else
      let out := download_discord w.cancelIdx w.errIdx w.contentLength w.chunks
      let preEvts := [DEvent.progressEvt 5, DEvent.versionEvt v]
      match out.2.1 with
      | some sz =>
        if cancelObserved w.cancelIdx (w.chunks.length + 1) then
          (out.1, preEvts ++ out.2.2 ++ [DEvent.completedEvt false none "CANCELLED"])
        else
          (out.1, preEvts ++ out.2.2 ++
            [DEvent.progressEvt 100, DEvent.completedEvt true (some sz) ""])
      | none =>
        if cancelObserved w.cancelIdx (w.chunks.length + 1) then
          (out.1, preEvts ++ out.2.2 ++ [DEvent.completedEvt false none "CANCELLED"])
        else
          (out.1, preEvts ++ out.2.2 ++
            [DEvent.completedEvt false none "Error al descargar el archivo"])

/-- Terminal events are the `download_completed` emissions. -/
def isTerminalD : DEvent → Bool
  | DEvent.completedEvt _ _ _ => true
  | _ => false

/-- The sublist of terminal events of a downloader trace. -/
def dTerminals (es : List DEvent) : List DEvent := es.filter isTerminalD

example : dlRun { finalUrl := some "https://x/discord-1.2.3.tar.gz", contentLength := 8,
                  chunks := [4, 4], cancelIdx := none, errIdx := none }
    = (some 8, [DEvent.progressEvt 5, DEvent.versionEvt "1.2.3", DEvent.progressEvt 10,
                DEvent.progressEvt 50, DEvent.progressEvt 90, DEvent.progressEvt 95,
                DEvent.progressEvt 100, DEvent.completedEvt true (some 8) ""]) := by decide

example : dlRun { finalUrl := some "https://x/discord-1.2.3.tar.gz", contentLength := 8,
                  chunks := [4, 4], cancelIdx := some 2, errIdx := none }
    = (none, [DEvent.progressEvt 5, DEvent.versionEvt "1.2.3", DEvent.progressEvt 10,
              DEvent.progressEvt 50, DEvent.completedEvt false none "CANCELLED"]) := by decide

example : dlRun { finalUrl := some "https://x/discord-1.2.3.tar.gz", contentLength := 8,
                  chunks := [4, 4], cancelIdx := some 0, errIdx := none }
    = (none, [DEvent.progressEvt 5, DEvent.versionEvt "1.2.3"]) := by decide

example : dlRun { finalUrl := some "https://x/discord-1.2.3.tar.gz", contentLength := 8,
                  chunks := [4, 4], cancelIdx := none, errIdx := some 2 }
    = (some 4, [DEvent.progressEvt 5, DEvent.versionEvt "1.2.3", DEvent.progressEvt 10,
                DEvent.progressEvt 50,
                DEvent.completedEvt false none "Error al descargar el archivo"]) := by decide

/-! ## Local archive discovery (DiscordInstaller.find_discord_tar)

`downloads.glob(Config.DISCORD_PATTERN)` yields matching files in directory
enumeration order (OS dependent, not sorted); the code then runs
`files.sort(key=lambda x: x.stat().st_mtime, reverse=True)` — Python's sort
is stable, so equal-mtime files keep their enumeration order — and takes
`files[0]`. We embed the stable descending sort as insertion sort. -/

/-- A file returned by the glob: its path, mtime and size in bytes. -/
structure TarFile where
  path : String
  mtime : Nat
  size : Nat
deriving DecidableEq

/-- Stable insertion for descending mtime: a new element goes after every
existing element with mtime greater than or equal to its own. -/
def insertByMtimeDesc (x : TarFile) : List TarFile → List TarFile
  | [] => [x]
  | y :: ys => if x.mtime ≥ y.mtime then x :: y :: ys else y :: insertByMtimeDesc x ys

/-- Stable sort by descending mtime — the effect of
`files.sort(key=lambda x: x.stat().st_mtime, reverse=True)`. -/
def sortByMtimeDesc : List TarFile → List TarFile
  | [] => []
  | x :: xs => insertByMtimeDesc x (sortByMtimeDesc xs)

/-- Model of `DiscordInstaller.find_discord_tar`: `none` on an empty glob,
otherwise the path and size of the head of the stable descending sort. -/
def find_discord_tar (files : List TarFile) : Option (String × Nat) :=
  match files with
  | [] => none
  | _ :: _ =>
    match sortByMtimeDesc files with
    | [] => none
    | newest :: _ => some (newest.path, newest.size)

/-- Strict lexicographic order on character lists (by code point). -/
def lexLt : List Char → List Char → Bool
  | [], [] => false
  | [], _ :: _ => true
  | _ :: _, [] => false
  | a :: as, b :: bs => if a < b then true else if b < a then false else lexLt as bs

/-- Modelled from the spec wording for the tie-break of claim C6: `f` beats
`g` when it has a strictly larger mtime, or an equal mtime and a
lexicographically larger path name. -/
def specBetter (f g : TarFile) : Bool :=
  decide (g.mtime < f.mtime)
    || (g.mtime == f.mtime && lexLt g.path.toList f.path.toList)

/-- Modelled from the spec wording of claim C6: the candidate with the most
recent mtime, ties broken toward the lexicographically largest path. -/
def specNewest : List TarFile → Option TarFile
  | [] => none
  | f :: fs =>
    match specNewest fs with
    | none => some f
    | some g => if specBetter f g then some f else some g

/-- The file the code actually selects: the first file, in enumeration
order, whose mtime is maximal. -/
def firstMaxMtime : List TarFile → Option TarFile
  | [] => none
  | f :: fs =>
    match firstMaxMtime fs with
    | none => some f
    | some g => if g.mtime > f.mtime then some g else some f

/-! ## The rendered transaction (INSTALL_SCRIPT_TEMPLATE)

The bash script runs under `set -e` with `trap cleanup_on_error ERR`.  The
trap restores the backup only when `[ -d "$BACKUP_DIR" ] && [ -d
"$INSTALL_DIR" ]`, then exits 1.  Explicit `exit 1` statements (missing or
corrupt archive, Discord folder not found) do not fire the ERR trap.

We model the install root, backup and extracted tree as abstract values of
a type `α` (a content hash of the directory tree), and inject at most one
command failure (`failAt`); the commands run by the ERR trap itself are
modelled as succeeding.  The cache-refresh step cannot fail (`|| true`). -/

/-- The trap-visible steps of the script at which a command can fail:
the backup copy (step 2), extraction (step 3), removal of the prior
installation (step 5), the move into place (step 6), permissions (step 7),
desktop-file creation and registration (steps 8–9), the bin symlink
(step 10), and the two removals of step 12 — first `rm -rf "$TEMP_DIR"`
(`tempCleanStep`, the backup still intact), then `rm -rf "$BACKUP_DIR"`
(`backupCleanStep`, which mutates the backup itself before failing). -/
inductive ScriptStep where
  | backupStep | extractStep | removeStep | moveStep
  | permStep | desktopStep | symlinkStep | tempCleanStep | backupCleanStep
deriving DecidableEq

/-- One run of the rendered script: the pre-attempt install-root tree
(`none` when absent), whether the archive passes `tar -tzf`, the `Discord`
folder found in the extracted archive (`none` when absent), at most one
injected command failure, the backup directory contents a failed `cp -r`
leaves behind (`none` when it created nothing), and the backup directory
contents a failed `rm -rf "$BACKUP_DIR"` leaves behind (a failing `rm -rf`
deletes part of the tree but leaves the directory in place, so this is a
plain tree value, possibly equal to the intact backup). -/
structure ScriptInput (α : Type) where
  preInstall : Option α
  archiveOk : Bool
  appFolder : Option α
  failAt : Option ScriptStep
  cpLeftover : Option α
  rmLeftover : α

/-- Exit status and final install-root tree of one script run. -/
structure ScriptResult (α : Type) where
  exitCode : Nat
  installRoot : Option α
deriving DecidableEq

/-- The `cleanup_on_error` handler: restore the backup over the install root
only when both directories exist, then `exit 1`. -/
def errTrap {α : Type} (backupDir root : Option α) : ScriptResult α :=
  match backupDir, root with
  | some b, some _ => { exitCode := 1, installRoot := some b }
  | _, _ => { exitCode := 1, installRoot := root }

/-- Steps 3 onward of the script, given the backup directory contents and
the current install-root tree.  A failure of `rm -rf "$TEMP_DIR"` (step 12)
fires the trap with the backup still intact; a failure of
`rm -rf "$BACKUP_DIR"` (only run when a backup exists) fires the trap with
the backup partially deleted, so the trap restores `rmLeftover` over the
fresh installation. -/
def runAfterBackup {α : Type} (inp : ScriptInput α) (backupDir root : Option α) :
    ScriptResult α :=
  if inp.failAt = some ScriptStep.extractStep then errTrap backupDir root
  else
    match inp.appFolder with
    | none => { exitCode := 1, installRoot := root }
    | some newTree =>
      if root.isSome ∧ inp.failAt = some ScriptStep.removeStep then
        errTrap backupDir root
      else if inp.failAt = some ScriptStep.moveStep then
        errTrap backupDir none
      else if inp.failAt = some ScriptStep.permStep
              ∨ inp.failAt = some ScriptStep.desktopStep
              ∨ inp.failAt = some ScriptStep.symlinkStep
              ∨ inp.failAt = some ScriptStep.tempCleanStep then
        errTrap backupDir (some newTree)
      else if backupDir.isSome ∧ inp.failAt = some ScriptStep.backupCleanStep then
        { exitCode := 1, installRoot := some inp.rmLeftover }
      else { exitCode := 0, installRoot := some newTree }

/-- Model of one run of the rendered transaction. -/
def runScript {α : Type} (inp : ScriptInput α) : ScriptResult α :=
  if inp.archiveOk = false then { exitCode := 1, installRoot := inp.preInstall }
  else
    match inp.preInstall with
    | some t =>
      if inp.failAt = some ScriptStep.backupStep then
        match inp.cpLeftover with
        | some p => { exitCode := 1, installRoot := some p }
        | none => { exitCode := 1, installRoot := some t }
      else runAfterBackup inp (some t) (some t)
    | none => runAfterBackup inp none none

example : runScript { preInstall := some 0, archiveOk := true, appFolder := some (1 : Nat),
                      failAt := some ScriptStep.moveStep, cpLeftover := none,
                      rmLeftover := 9 }
    = { exitCode := 1, installRoot := none } := by decide

example : runScript { preInstall := some 0, archiveOk := true, appFolder := some (1 : Nat),
                      failAt := some ScriptStep.symlinkStep, cpLeftover := none,
                      rmLeftover := 9 }
    = { exitCode := 1, installRoot := some 0 } := by decide

example : runScript { preInstall := some 0, archiveOk := true, appFolder := some (1 : Nat),
                      failAt := some ScriptStep.backupCleanStep, cpLeftover := none,
                      rmLeftover := 9 }
    = { exitCode := 1, installRoot := some 9 } := by decide

example : runScript { preInstall := some 0, archiveOk := true, appFolder := some (1 : Nat),
                      failAt := none, cpLeftover := none, rmLeftover := 9 }
    = { exitCode := 0, installRoot := some 1 } := by decide

/-! ## DiscordInstaller: install, completion callback, timeout callback

`install` validates the archive, writes the temp script, `chmod 0o755`s it
and starts `pkexec`; any exception before or at start is caught, `_cleanup`
runs and a single failure signal is emitted.  `_on_process_finished` and
`_on_timeout` are the Qt callbacks; `QProcess.kill()` makes Qt deliver the
`finished` signal afterwards, so a timeout is followed by a
`_on_process_finished` invocation. -/

/-- Events `DiscordInstaller` emits: `progress_updated`, `log_message` and
the terminal `installation_completed` signal. -/
inductive IEvent where
  | progressEvt (pct : Nat) (msg : String) : IEvent
  | logEvt (msg : String) : IEvent
  | completedEvt (success : Bool) (msg : String) : IEvent
deriving DecidableEq

/-- Terminal events are the `installation_completed` emissions. -/
def isTerminalI : IEvent → Bool
  | IEvent.completedEvt _ _ => true
  | _ => false

/-- The sublist of terminal events of an installer trace. -/
def iTerminals (es : List IEvent) : List IEvent := es.filter isTerminalI

/-- Supervisor state: whether the pkexec child is still running and whether
the rendered temp script is still on disk. -/
structure ExecState where
  running : Bool
  scriptOnDisk : Bool
deriving DecidableEq

/-- `DiscordInstaller._cleanup`: removes the temp script. -/
def cleanupState (s : ExecState) : ExecState := { s with scriptOnDisk := false }

/-- `DiscordInstaller._on_process_finished`: cleanup, then classify the exit
code — 0 success, 126/127 auth cancelled, anything else failure. -/
def onProcessFinished (exitCode : Nat) (s : ExecState) : ExecState × List IEvent :=
  let s1 := cleanupState { s with running := false }
  if exitCode = 0 then
    (s1, [IEvent.progressEvt 100 "¡Instalación completada!",
          IEvent.completedEvt true "Discord se instaló correctamente"])
  else if exitCode = 126 ∨ exitCode = 127 then
    (s1, [IEvent.progressEvt 0 "Instalación cancelada",
          IEvent.completedEvt false "CANCELLED"])
  else
    (s1, [IEvent.progressEvt 0 "Instalación fallida",
          IEvent.completedEvt false "La instalación falló. Verifica los logs para más detalles."])

/-- `DiscordInstaller._on_timeout`: when the process is still running, kill
it, run `_cleanup` and emit the timeout failure; otherwise do nothing. -/
def onTimeout (s : ExecState) : ExecState × List IEvent :=
  if s.running then
    (cleanupState { s with running := false },
     [IEvent.completedEvt false "Timeout: La instalación tomó demasiado tiempo"])
  else (s, [])

/-- The 300s-timeout scenario under Qt semantics: the timer fires while the
process is running, `_on_timeout` kills the process, and the kill makes Qt
deliver `finished`, which invokes the still-connected
`_on_process_finished` with the exit code of the killed child. -/
def timeoutScenario (exitCode : Nat) (s : ExecState) : ExecState × List IEvent :=
  let out := onTimeout s
  if s.running then
    let out2 := onProcessFinished exitCode out.1
    (out2.1, out.2 ++ out2.2)
  else out

/-- One `install(tar_path)` call up to the point where control returns to
the event loop: whether `validate_tar_file` accepted the archive, and
whether `waitForStarted` succeeded. -/
structure InstallAttempt where
  tarValid : Bool
  startOk : Bool
deriving DecidableEq

/-- What an `install` call produced: whether `pkexec` was started, the mode
the temp script was `chmod`ed to (`none` when it was never created),
whether the script is still on disk when `install` returns, and the emitted
events. -/
structure InstallOutcome where
  pkexecInvoked : Bool
  scriptMode : Option Nat
  scriptOnDisk : Bool
  events : List IEvent
deriving DecidableEq

/-- Model of `DiscordInstaller.install`.  On a validation failure the raise
is caught before the temp script is written and before `pkexec` runs:
`_cleanup` is a no-op and one failure signal is emitted.  When the process
fails to start, the script was already created (mode `0o755`) and started,
and the exception handler cleans it up and emits one failure signal.
Otherwise `install` returns with the process running and no terminal
event — the terminal event comes later from the callbacks. -/
def installRun (a : InstallAttempt) : InstallOutcome :=
  if a.tarValid = false then
    { pkexecInvoked := false, scriptMode := none, scriptOnDisk := false,
      events := [IEvent.logEvt "Validando archivo de instalación...",
                 IEvent.progressEvt 10 "Validando archivo...",
                 IEvent.completedEvt false "El archivo tar.gz está corrupto o es inválido"] }
  else if a.startOk = false then
    { pkexecInvoked := true, scriptMode := some 0o755, scriptOnDisk := false,
      events := [IEvent.logEvt "Validando archivo de instalación...",
                 IEvent.progressEvt 10 "Validando archivo...",
                 IEvent.logEvt "Archivo validado correctamente",
                 IEvent.progressEvt 20 "Generando script de instalación...",
                 IEvent.logEvt "Solicitando privilegios de administrador...",
                 IEvent.progressEvt 30 "Esperando autorización...",
                 IEvent.completedEvt false "No se pudo iniciar el proceso de instalación"] }
  else
    { pkexecInvoked := true, scriptMode := some 0o755, scriptOnDisk := true,
      events := [IEvent.logEvt "Validando archivo de instalación...",
                 IEvent.progressEvt 10 "Validando archivo...",
                 IEvent.logEvt "Archivo validado correctamente",
                 IEvent.progressEvt 20 "Generando script de instalación...",
                 IEvent.logEvt "Solicitando privilegios de administrador...",
                 IEvent.progressEvt 30 "Esperando autorización...",
                 IEvent.logEvt "Instalación en progreso...",
                 IEvent.progressEvt 40 "Instalando Discord..."] }

/-- Octal digit of a Unix mode describing the owner permissions. -/
def ownerBits (m : Nat) : Nat := m / 64 % 8

/-- Octal digit of a Unix mode describing the group permissions. -/
def groupBits (m : Nat) : Nat := m / 8 % 8

/-- Octal digit of a Unix mode describing the other-users permissions. -/
def otherBits (m : Nat) : Nat := m % 8

/-- Whether a permission digit includes the write bit (value 2). -/
def hasWriteBit (d : Nat) : Bool := decide (d / 2 % 2 = 1)

/-- Whether a permission digit includes the execute bit (value 1). -/
def hasExecBit (d : Nat) : Bool := decide (d % 2 = 1)

/-- Modelled from the spec wording of claim C9: the mode grants write and
execute to the owner and to nobody else. -/
def ownerOnlyWriteExec (m : Nat) : Bool :=
  hasWriteBit (ownerBits m) && hasExecBit (ownerBits m)
    && !hasWriteBit (groupBits m) && !hasExecBit (groupBits m)
    && !hasWriteBit (otherBits m) && !hasExecBit (otherBits m)

example : ownerOnlyWriteExec 0o700 = true := by decide
example : ownerOnlyWriteExec 0o755 = false := by decide

/-! ## The scan phase (DiscordInstallerUI._initial_scan and helpers)

The UI scan runs before any install attempt: it checks the prerequisites
(`validate_installation_requirements`) and then, per mode, the network or
the local candidate.  Every blocked branch only sets labels (and, for an
incompatible system, pops an error dialog) and returns — the scan itself
never calls `install`, so no privileged process is started from it. -/

/-- Model of `DiscordInstaller.validate_installation_requirements`: pkexec
must be available; the free space (in bytes, `none` when `os.statvfs`
raises — the code then only logs a warning and passes) must be at least
500 MB. -/
def validate_installation_requirements (pkexecAvailable : Bool)
    (freeSpace : Option Nat) : Bool × String :=
  if pkexecAvailable = false then
    (false, "pkexec no está disponible. Instala policykit.")
  else
    match freeSpace with
    | some free =>
      if free < 500 * 1024 * 1024 then
        (false, "Espacio insuficiente. Se requieren 500 MB, disponibles: "
          ++ toString (free / (1024 * 1024)) ++ " MB")
      else (true, "Sistema compatible")
    | none => (true, "Sistema compatible")

/-- The installation mode selected in the UI. -/
inductive ScanMode where
  | auto | manual
deriving DecidableEq

/-- Environment of one `_initial_scan` run. -/
structure ScanInput where
  pkexecAvailable : Bool
  freeSpace : Option Nat
  mode : ScanMode
  internetOk : Bool
  localTar : Option (String × Nat)
  installedVersion : Option String
deriving DecidableEq

/-- What a scan run produced, starting from the initial disabled button
state: whether a privileged process was started (the scan never starts
one), whether the install action was enabled, the button label, and the
error dialog shown (only for an incompatible system). -/
structure ScanOutcome where
  pkexecInvoked : Bool
  installEnabled : Bool
  buttonText : String
  surfacedError : Option String
deriving DecidableEq

/-- Model of `DiscordInstallerUI._initial_scan` together with
`_scan_auto_mode` and `_scan_manual_mode`. -/
def initialScan (s : ScanInput) : ScanOutcome :=
  let vr := validate_installation_requirements s.pkexecAvailable s.freeSpace
  if vr.1 = false then
    { pkexecInvoked := false, installEnabled := false,
      buttonText := "SISTEMA NO COMPATIBLE", surfacedError := some vr.2 }
  else
    match s.mode with
    | ScanMode.auto =>
      if s.internetOk = false then
        { pkexecInvoked := false, installEnabled := false,
          buttonText := "SIN INTERNET", surfacedError := none }
      else
        { pkexecInvoked := false, installEnabled := true,
          buttonText := if s.installedVersion.isSome then "ACTUALIZAR"
                        else "DESCARGAR E INSTALAR",
          surfacedError := none }
    | ScanMode.manual =>
      match s.localTar with
      | some _ =>
        { pkexecInvoked := false, installEnabled := true,
          buttonText := (if s.installedVersion.isSome then "ACTUALIZAR" else "INSTALAR")
                          ++ " DISCORD",
          surfacedError := none }
      | none =>
        { pkexecInvoked := false, installEnabled := false,
          buttonText := "ARCHIVO NO ENCONTRADO", surfacedError := none }

/-- What `DiscordInstallerUI._on_download_completed` does with a terminal
download signal: whether it proceeds toward installation (the confirmation
prompt and `_start_installation`) and which error it surfaces. -/
structure DlCompletionUI where
  startsInstallFlow : Bool
  surfacedError : Option String
deriving DecidableEq

/-- Model of `DiscordInstallerUI._on_download_completed`: CANCELLED resets
the UI; a success with a file path proceeds toward installation; any other
failure shows the error and re-enables retry, never reaching `install`. -/
def onDownloadCompleted (success : Bool) (filepath errMsg : String) : DlCompletionUI :=
  if errMsg = "CANCELLED" then { startsInstallFlow := false, surfacedError := none }
  else if success = true ∧ filepath ≠ "" then
    { startsInstallFlow := true, surfacedError := none }
  else { startsInstallFlow := false, surfacedError := some errMsg }

/-! ## Helper lemmas -/

theorem insertByMtimeDesc_headOpt (x : TarFile) (l : List TarFile) :
    (insertByMtimeDesc x l).head? =
      some (match l with
            | [] => x
            | y :: _ => if x.mtime ≥ y.mtime then x else y) := by
  cases l with
  | nil => rfl
  | cons y ys =>
    by_cases h : x.mtime ≥ y.mtime <;> simp [insertByMtimeDesc, h]

theorem sortByMtimeDesc_headOpt (l : List TarFile) :
    (sortByMtimeDesc l).head? = firstMaxMtime l := by
  induction l with
  | nil => rfl
  | cons x xs ih =>
    show (insertByMtimeDesc x (sortByMtimeDesc xs)).head? = firstMaxMtime (x :: xs)
    rw [insertByMtimeDesc_headOpt]
    cases h : sortByMtimeDesc xs with
    | nil =>
      rw [h] at ih
      simp only [List.head?] at ih
      show some x = firstMaxMtime (x :: xs)
      simp [firstMaxMtime, ← ih]
    | cons y ys =>
      rw [h] at ih
      simp only [List.head?] at ih
      show some (if x.mtime ≥ y.mtime then x else y) = firstMaxMtime (x :: xs)
      simp only [firstMaxMtime, ← ih]
      by_cases hxy : x.mtime ≥ y.mtime
      · rw [if_pos hxy, if_neg (Nat.not_lt.mpr hxy)]
      · rw [if_neg hxy, if_pos (Nat.lt_of_not_le hxy)]

theorem firstMaxMtime_cons_isSome (x : TarFile) (xs : List TarFile) :
    (firstMaxMtime (x :: xs)).isSome = true := by
  show (match firstMaxMtime xs with
        | none => some x
        | some g => if g.mtime > x.mtime then some g else some x).isSome = true
  cases firstMaxMtime xs with
  | none => rfl
  | some g => by_cases h : g.mtime > x.mtime <;> simp [h]

/-! ## Claim C10 — validate_tar_file -/

/-- C10: `SystemUtils.validate_tar_file` is total and returns `True` exactly
when the path opens as a gzip tar whose member list is nonempty; a missing,
unreadable or corrupt archive (the raising open, `none`) and a structurally
valid archive with zero members both yield `False`. -/
theorem claim_C10 (archive : Option (List Nat)) :
    validate_tar_file archive = true ↔ ∃ ms, archive = some ms ∧ 0 < ms.length := by
  cases archive with
  | none => simp [validate_tar_file]
  | some ms =>
    simp only [validate_tar_file, Option.some.injEq]
    constructor
    · intro h
      refine ⟨ms, rfl, ?_⟩
      by_cases h0 : ms.length = 0
      · rw [if_pos h0] at h; exact absurd h (by simp)
      · omega
    · rintro ⟨ms', hms, hlen⟩
      cases hms
      rw [if_neg (by omega)]

/-! ## Claim C8 — failures before privilege escalation -/

/-- C8: every failure class detected before privilege escalation keeps the
elevation helper uninvoked and surfaces exactly one specific failure:
(1) an archive-validation failure inside `install` emits exactly one
terminal Failed event with the specific message and never starts `pkexec`;
(2) a prerequisite failure (missing pkexec, insufficient space) blocks the
scan with the specific message of `validate_installation_requirements`,
leaving the install action disabled and no privileged process started;
(3) scenario C — manual mode with no matching local archive and satisfied
prerequisites — blocks the scan with the no-candidate label, install
action disabled, no privileged process;
(4) automatic mode without connectivity likewise blocks the scan;
(5) a resolution failure makes the downloader emit exactly one terminal
Failed event with the specific message, and the completion handler does
not proceed toward installation (so `install`, hence `pkexec`, is never
reached). -/
theorem claim_C8 (a : InstallAttempt) (s : ScanInput) (w : DlInput) :
    (a.tarValid = false →
        (installRun a).pkexecInvoked = false
        ∧ iTerminals (installRun a).events
            = [IEvent.completedEvt false "El archivo tar.gz está corrupto o es inválido"])
    ∧ ((validate_installation_requirements s.pkexecAvailable s.freeSpace).1 = false →
        (initialScan s).pkexecInvoked = false
        ∧ (initialScan s).installEnabled = false
        ∧ (initialScan s).surfacedError
            = some (validate_installation_requirements s.pkexecAvailable s.freeSpace).2)
    ∧ ((validate_installation_requirements s.pkexecAvailable s.freeSpace).1 = true →
        s.mode = ScanMode.manual → s.localTar = none →
        (initialScan s).pkexecInvoked = false
        ∧ (initialScan s).installEnabled = false
        ∧ (initialScan s).buttonText = "ARCHIVO NO ENCONTRADO")
    ∧ ((validate_installation_requirements s.pkexecAvailable s.freeSpace).1 = true →
        s.mode = ScanMode.auto → s.internetOk = false →
        (initialScan s).pkexecInvoked = false
        ∧ (initialScan s).installEnabled = false
        ∧ (initialScan s).buttonText = "SIN INTERNET")
    ∧ (get_latest_version_info w.finalUrl = none →
        dTerminals (dlRun w).2
          = [DEvent.completedEvt false none
              "No se pudo detectar la última versión de Discord"]
        ∧ (onDownloadCompleted false ""
            "No se pudo detectar la última versión de Discord").startsInstallFlow
            = false) := by
  refine ⟨?_, ?_, ?_, ?_, ?_⟩
  · intro h
    simp [installRun, h, iTerminals, isTerminalI, List.filter]
  · intro h
    simp [initialScan, h]
  · intro hvr hm hl
    simp [initialScan, hvr, hm, hl]
  · intro hvr hm hi
    simp [initialScan, hvr, hm, hi]
  · intro hv
    exact ⟨by simp [dlRun, hv, dTerminals, isTerminalD, List.filter], by decide⟩

/-- C8 witness: concrete instances of all five pre-escalation failure
classes — an invalid archive, a missing pkexec, manual mode with no local
candidate, automatic mode without connectivity, and a failed version
resolution. -/
theorem claim_C8_witness :
    ((installRun { tarValid := false, startOk := true }).pkexecInvoked = false
      ∧ iTerminals (installRun { tarValid := false, startOk := true }).events
          = [IEvent.completedEvt false "El archivo tar.gz está corrupto o es inválido"])
    ∧ ((initialScan { pkexecAvailable := false, freeSpace := some 1000000000,
                      mode := ScanMode.manual, internetOk := true, localTar := none,
                      installedVersion := none }).pkexecInvoked = false
        ∧ (initialScan { pkexecAvailable := false, freeSpace := some 1000000000,
                         mode := ScanMode.manual, internetOk := true, localTar := none,
                         installedVersion := none }).installEnabled = false
        ∧ (initialScan { pkexecAvailable := false, freeSpace := some 1000000000,
                         mode := ScanMode.manual, internetOk := true, localTar := none,
                         installedVersion := none }).surfacedError
            = some (validate_installation_requirements false (some 1000000000)).2)
    ∧ ((initialScan { pkexecAvailable := true, freeSpace := none,
                      mode := ScanMode.manual, internetOk := true, localTar := none,
                      installedVersion := none }).pkexecInvoked = false
        ∧ (initialScan { pkexecAvailable := true, freeSpace := none,
                         mode := ScanMode.manual, internetOk := true, localTar := none,
                         installedVersion := none }).installEnabled = false
        ∧ (initialScan { pkexecAvailable := true, freeSpace := none,
                         mode := ScanMode.manual, internetOk := true, localTar := none,
                         installedVersion := none }).buttonText = "ARCHIVO NO ENCONTRADO")
    ∧ ((initialScan { pkexecAvailable := true, freeSpace := none,
                      mode := ScanMode.auto, internetOk := false, localTar := none,
                      installedVersion := none }).pkexecInvoked = false
        ∧ (initialScan { pkexecAvailable := true, freeSpace := none,
                         mode := ScanMode.auto, internetOk := false, localTar := none,
                         installedVersion := none }).installEnabled = false
        ∧ (initialScan { pkexecAvailable := true, freeSpace := none,
                         mode := ScanMode.auto, internetOk := false, localTar := none,
                         installedVersion := none }).buttonText = "SIN INTERNET")
    ∧ (dTerminals (dlRun { finalUrl := none, contentLength := 0, chunks := [],
                           cancelIdx := none, errIdx := none }).2
          = [DEvent.completedEvt false none
              "No se pudo detectar la última versión de Discord"]
        ∧ (onDownloadCompleted false ""
            "No se pudo detectar la última versión de Discord").startsInstallFlow
            = false) := by
  refine ⟨?_, ?_, ?_, ?_, ?_⟩
  · exact (claim_C8 ⟨false, true⟩ ⟨false, some 1000000000, ScanMode.manual, true, none, none⟩
      ⟨none, 0, [], none, none⟩).1 rfl
  · exact (claim_C8 ⟨false, true⟩ ⟨false, some 1000000000, ScanMode.manual, true, none, none⟩
      ⟨none, 0, [], none, none⟩).2.1 (by decide)
  · exact (claim_C8 ⟨false, true⟩ ⟨true, none, ScanMode.manual, true, none, none⟩
      ⟨none, 0, [], none, none⟩).2.2.1 (by decide) rfl rfl
  · exact (claim_C8 ⟨false, true⟩ ⟨true, none, ScanMode.auto, false, none, none⟩
      ⟨none, 0, [], none, none⟩).2.2.2.1 (by decide) rfl rfl
  · exact (claim_C8 ⟨false, true⟩ ⟨true, none, ScanMode.auto, false, none, none⟩
      ⟨none, 0, [], none, none⟩).2.2.2.2 rfl

/-! ## Claim C2 — one terminal event per privileged attempt -/

/-- C2: the claim fails on the code.  When the timeout fires while the
process is running, `_on_timeout` emits the timeout failure and kills the
process, but the `finished` signal of the killed process is still connected
to `_on_process_finished`, which emits a second terminal event (whatever
the reported exit code is), so the attempt produces two terminal events;
the temp script is removed. -/
theorem claim_C2 (exitCode : Nat) :
    (iTerminals (timeoutScenario exitCode { running := true, scriptOnDisk := true }).2).length = 2
    ∧ (timeoutScenario exitCode { running := true, scriptOnDisk := true }).1.scriptOnDisk
        = false := by
  by_cases h0 : exitCode = 0
  · subst h0; decide
  · by_cases h126 : exitCode = 126
    · subst h126; decide
    · by_cases h127 : exitCode = 127
      · subst h127; decide
      · simp [timeoutScenario, onTimeout, onProcessFinished, cleanupState,
              iTerminals, isTerminalI, h0, h126, h127, List.filter]

/-! ## Claim C9 — temp script permissions and cleanup -/

/-- C9 counterexample: the temp script is `chmod`ed to `0o755`, which grants
execute (and read) to group and others, so write-and-execute is not
owner-only as the claim states. -/
theorem claim_C9_counterexample :
    (installRun { tarValid := true, startOk := true }).scriptMode = some 0o755
    ∧ ownerOnlyWriteExec 0o755 = false := by decide

/-- C9 amended: whenever the temp script is created it gets mode `0o755` —
write is owner-only, but execute is granted to owner, group and others —
and the script is removed by `_cleanup` on every terminal outcome: on
process exit, on timeout while running, and on the pre-start failure
paths of `install`. -/
theorem claim_C9 (exitCode : Nat) (s : ExecState) (a : InstallAttempt) :
    ((installRun a).scriptMode = none ∨ (installRun a).scriptMode = some 0o755)
    ∧ (hasWriteBit (ownerBits 0o755) = true ∧ hasExecBit (ownerBits 0o755) = true
        ∧ hasWriteBit (groupBits 0o755) = false ∧ hasWriteBit (otherBits 0o755) = false
        ∧ hasExecBit (groupBits 0o755) = true ∧ hasExecBit (otherBits 0o755) = true)
    ∧ (onProcessFinished exitCode s).1.scriptOnDisk = false
    ∧ (s.running = true → (onTimeout s).1.scriptOnDisk = false)
    ∧ (a.tarValid = false → (installRun a).scriptOnDisk = false)
    ∧ (a.startOk = false → (installRun a).scriptOnDisk = false) := by
  refine ⟨?_, by decide, ?_, ?_, ?_, ?_⟩
  · by_cases hv : a.tarValid = false
    · left; simp [installRun, hv]
    · by_cases hs : a.startOk = false <;> right <;> simp [installRun, hv, hs]
  · simp [onProcessFinished, cleanupState]
    split_ifs <;> rfl
  · intro hr; simp [onTimeout, hr, cleanupState]
  · intro hv; simp [installRun, hv]
  · intro hs
    by_cases hv : a.tarValid = false <;> simp [installRun, hv, hs]

/-- C9 witness: a concrete exit code, state and attempt. -/
theorem claim_C9_witness :
    ((installRun { tarValid := false, startOk := false }).scriptMode = none
      ∨ (installRun { tarValid := false, startOk := false }).scriptMode = some 0o755)
    ∧ (hasWriteBit (ownerBits 0o755) = true ∧ hasExecBit (ownerBits 0o755) = true
        ∧ hasWriteBit (groupBits 0o755) = false ∧ hasWriteBit (otherBits 0o755) = false
        ∧ hasExecBit (groupBits 0o755) = true ∧ hasExecBit (otherBits 0o755) = true)
    ∧ (onProcessFinished 9 { running := true, scriptOnDisk := true }).1.scriptOnDisk = false
    ∧ (onTimeout { running := true, scriptOnDisk := true }).1.scriptOnDisk = false
    ∧ (installRun { tarValid := false, startOk := false }).scriptOnDisk = false
    ∧ (installRun { tarValid := false, startOk := false }).scriptOnDisk = false := by
  have h := claim_C9 9 { running := true, scriptOnDisk := true }
    { tarValid := false, startOk := false }
  exact ⟨h.1, h.2.1, h.2.2.1, h.2.2.2.1 rfl, h.2.2.2.2.1 rfl, h.2.2.2.2.2 rfl⟩

/-! ## Claim C1 — rollback of the rendered transaction -/

/-- C1 counterexample: an existing installation (tree `0`), a valid archive
extracting to tree `1`, and a failure of the `mv` into place (step 6).  The
prior installation was already removed in step 5, so the `-d $INSTALL_DIR`
guard of `cleanup_on_error` is false and the backup is NOT restored: the
script exits 1 with the install root absent instead of the pre-attempt
tree. -/
theorem claim_C1_counterexample :
    (runScript { preInstall := some 0, archiveOk := true, appFolder := some (1 : Nat),
                 failAt := some ScriptStep.moveStep, cpLeftover := none,
                 rmLeftover := 9 }).exitCode ≠ 0
    ∧ (runScript { preInstall := some 0, archiveOk := true, appFolder := some (1 : Nat),
                   failAt := some ScriptStep.moveStep, cpLeftover := none,
                   rmLeftover := 9 }).installRoot
        ≠ some 0 := by decide

/-- C1 amended: for a pre-existing install root, any failing run of the
transaction terminates with a non-zero status, and the install root is
restored to exactly the pre-attempt tree provided the injected failure is
none of: the backup copy itself (step 2, which can leave a partial backup
restored over the intact root), the move into place (step 6, after the
prior installation was removed, when the `-d $INSTALL_DIR` trap guard
blocks restoration), or the removal of the backup directory (step 12,
which partially deletes the backup before the trap restores it). -/
theorem claim_C1 {α : Type} (inp : ScriptInput α) (t : α)
    (hpre : inp.preInstall = some t)
    (hb : inp.failAt ≠ some ScriptStep.backupStep)
    (hm : inp.failAt ≠ some ScriptStep.moveStep)
    (hcl : inp.failAt ≠ some ScriptStep.backupCleanStep)
    (hfail : (runScript inp).exitCode ≠ 0) :
    (runScript inp).installRoot = some t := by
  unfold runScript at hfail ⊢
  by_cases hA : inp.archiveOk = false
  · rw [if_pos hA]; simp [hpre]
  · rw [if_neg hA] at hfail ⊢
    rw [hpre] at hfail ⊢
    simp only [if_neg hb]
    simp only [if_neg hb] at hfail
    unfold runAfterBackup at hfail ⊢
    by_cases hE : inp.failAt = some ScriptStep.extractStep
    · rw [if_pos hE]; rfl
    · rw [if_neg hE] at hfail ⊢
      cases hApp : inp.appFolder with
      | none => simp
      | some newTree =>
        simp only [hApp] at hfail ⊢
        by_cases hR : (some t : Option α).isSome ∧ inp.failAt = some ScriptStep.removeStep
        · rw [if_pos hR]; rfl
        · rw [if_neg hR] at hfail ⊢
          rw [if_neg hm] at hfail ⊢
          by_cases hTail : inp.failAt = some ScriptStep.permStep
              ∨ inp.failAt = some ScriptStep.desktopStep
              ∨ inp.failAt = some ScriptStep.symlinkStep
              ∨ inp.failAt = some ScriptStep.tempCleanStep
          · rw [if_pos hTail]; rfl
          · rw [if_neg hTail] at hfail ⊢
            have hBC : ¬ ((some t : Option α).isSome
                ∧ inp.failAt = some ScriptStep.backupCleanStep) := fun hx => hcl hx.2
            rw [if_neg hBC] at hfail
            exact absurd rfl hfail

/-- C1 witness: an extraction failure over an existing installation is
rolled back exactly. -/
theorem claim_C1_witness :
    (runScript { preInstall := some 0, archiveOk := true, appFolder := some (1 : Nat),
                 failAt := some ScriptStep.extractStep, cpLeftover := none,
                 rmLeftover := 9 }).installRoot
      = some 0 :=
  claim_C1 _ 0 rfl (by decide) (by decide) (by decide) (by decide)

/-! ## Claim C6 — local archive selection -/

/-- C6 counterexample: two glob results with equal mtime, enumerated with
the lexicographically smaller path first.  The stable reverse sort keeps
the enumeration order on the tie, so the code returns `a.tar.gz`, while the
claimed tie-break (lexicographically largest path) would return
`b.tar.gz`. -/
theorem claim_C6_counterexample :
    find_discord_tar [{ path := "a.tar.gz", mtime := 5, size := 10 },
                      { path := "b.tar.gz", mtime := 5, size := 20 }]
      = some ("a.tar.gz", 10)
    ∧ (specNewest [{ path := "a.tar.gz", mtime := 5, size := 10 },
                   { path := "b.tar.gz", mtime := 5, size := 20 }]).map
          (fun f => (f.path, f.size))
      = some ("b.tar.gz", 20)
    ∧ some ("a.tar.gz", (10 : Nat)) ≠ some ("b.tar.gz", 20) := by decide

/-- C6 amended: `find_discord_tar` returns `None` exactly on an empty glob,
and otherwise the path and size of the first file, in directory enumeration
order, whose modification time is maximal — the mtime tie-break is the
enumeration order of the glob (Python's sort is stable), not the
lexicographically largest path. -/
theorem claim_C6 (files : List TarFile) :
    find_discord_tar files = (firstMaxMtime files).map fun f => (f.path, f.size) := by
  cases files with
  | nil => rfl
  | cons x xs =>
    have h := sortByMtimeDesc_headOpt (x :: xs)
    unfold find_discord_tar
    cases hs : sortByMtimeDesc (x :: xs) with
    | nil =>
      exfalso
      rw [hs] at h
      have hbad := congrArg Option.isSome h
      rw [firstMaxMtime_cons_isSome] at hbad
      simp at hbad
    | cons n rest =>
      rw [hs] at h
      simp only [List.head?] at h
      rw [← h]
      rfl

/-! ## Downloader loop lemmas -/

theorem dlLoop_no_terminal (cIdx eIdx : Option Nat) (total : Nat) :
    ∀ (chunks : List Nat) (b written : Nat),
      dTerminals (dlLoop cIdx eIdx total chunks b written).2.2 = [] := by
  intro chunks
  induction chunks with
  | nil =>
    intro b written
    by_cases he : errObserved eIdx b = true <;>
      simp [dlLoop, he, dTerminals, isTerminalD, List.filter]
  | cons c rest ih =>
    intro b written
    by_cases he : errObserved eIdx b = true
    · simp [dlLoop, he, dTerminals]
    · by_cases hc : cancelObserved cIdx b = true
      · simp [dlLoop, he, hc, dTerminals]
      · have h1 := ih (b + 1) (written + c)
        have h2 := ih (b + 1) written
        by_cases hz : c > 0 <;> by_cases ht : total > 0 <;>
          simp_all [dlLoop, dTerminals, isTerminalD, List.filter_append]

theorem dlLoop_file (cIdx : Option Nat) (total : Nat) :
    ∀ (chunks : List Nat) (b written : Nat),
      (dlLoop cIdx none total chunks b written).1 = none
      ∨ (dlLoop cIdx none total chunks b written).1 = some (written + chunks.sum) := by
  intro chunks
  induction chunks with
  | nil => intro b written; right; simp [dlLoop, errObserved]
  | cons c rest ih =>
    intro b written
    by_cases hc : cancelObserved cIdx b = true
    · left; simp [dlLoop, errObserved, hc]
    · by_cases hz : c > 0
      · rcases ih (b + 1) (written + c) with h | h
        · left; simpa [dlLoop, errObserved, hc, hz] using h
        · right
          have : written + c + rest.sum = written + (c :: rest).sum := by
            simp [List.sum_cons]; omega
          rw [← this]
          simpa [dlLoop, errObserved, hc, hz] using h
      · have hc0 : c = 0 := by omega
        rcases ih (b + 1) written with h | h
        · left; simpa [dlLoop, errObserved, hc, hz] using h
        · right
          have : written + rest.sum = written + (c :: rest).sum := by
            simp [List.sum_cons, hc0]
          rw [← this]
          simpa [dlLoop, errObserved, hc, hz] using h

theorem dlLoop_ret (cIdx eIdx : Option Nat) (total : Nat) :
    ∀ (chunks : List Nat) (b written s : Nat),
      (dlLoop cIdx eIdx total chunks b written).2.1 = some s →
        s = written + chunks.sum ∧ 0 < s
        ∧ (dlLoop cIdx eIdx total chunks b written).1 = some s := by
  intro chunks
  induction chunks with
  | nil =>
    intro b written s h
    simp only [dlLoop] at h ⊢
    by_cases he : errObserved eIdx b = true
    · rw [if_pos he] at h
      exact absurd h (by simp)
    · rw [if_neg he] at h ⊢
      by_cases hw : written > 0
      · rw [if_pos hw] at h
        cases h
        exact ⟨by simp, hw, rfl⟩
      · rw [if_neg hw] at h
        exact absurd h (by simp)
  | cons c rest ih =>
    intro b written s h
    by_cases he : errObserved eIdx b = true
    · simp [dlLoop, he] at h
    · by_cases hc : cancelObserved cIdx b = true
      · simp [dlLoop, he, hc] at h
      · by_cases hz : c > 0
        · simp only [dlLoop, he, hc, Bool.false_eq_true, if_false, hz, if_pos] at h ⊢
          obtain ⟨h1, h2, h3⟩ := ih (b + 1) (written + c) s h
          refine ⟨by simp [List.sum_cons]; omega, h2, h3⟩
        · simp only [dlLoop, he, hc, Bool.false_eq_true, if_false, hz, if_neg] at h ⊢
          obtain ⟨h1, h2, h3⟩ := ih (b + 1) written s h
          have hc0 : c = 0 := by omega
          refine ⟨by simp [List.sum_cons, hc0]; omega, h2, h3⟩

theorem dlLoop_cancelled (total : Nat) (j : Nat) :
    ∀ (chunks : List Nat) (b written : Nat), b ≤ j → j < b + chunks.length →
      (dlLoop (some j) none total chunks b written).1 = none
      ∧ (dlLoop (some j) none total chunks b written).2.1 = none := by
  intro chunks
  induction chunks with
  | nil => intro b written h1 h2; simp at h2; omega
  | cons c rest ih =>
    intro b written h1 h2
    by_cases hj : j ≤ b
    · constructor <;> simp [dlLoop, errObserved, cancelObserved, hj]
    · have hb1 : (b + 1) ≤ j := by omega
      have hlt : j < (b + 1) + rest.length := by
        simp only [List.length_cons] at h2; omega
      by_cases hz : c > 0
      · have hrec := ih (b + 1) (written + c) hb1 hlt
        constructor <;>
          simp [dlLoop, errObserved, cancelObserved, hj, hz, hrec.1, hrec.2]
      · have hrec := ih (b + 1) written hb1 hlt
        constructor <;>
          simp [dlLoop, errObserved, cancelObserved, hj, hz, hrec.1, hrec.2]

/-! ## Claim C3 — one terminal event per downloader run -/

/-- C3 counterexample: version resolution succeeds, then the cancellation
flag is observed at the check between resolution and download — `run`
returns without emitting any terminal event, so the number of terminal
events is 0, not 1. -/
theorem claim_C3_counterexample :
    ¬ (dTerminals (dlRun { finalUrl := some "https://x/discord-1.2.3.tar.gz",
                           contentLength := 0, chunks := [], cancelIdx := some 0,
                           errIdx := none }).2).length = 1 := by decide

/-- C3 amended: every downloader run emits exactly one terminal
`download_completed` event, except on the path where version resolution
succeeded and the cancellation flag is observed at the check between
resolution and download, where the run returns with zero terminal
events. -/
theorem claim_C3 (w : DlInput) :
    (dTerminals (dlRun w).2).length =
      if (get_latest_version_info w.finalUrl).isSome && cancelObserved w.cancelIdx 0
      then 0 else 1 := by
  unfold dlRun
  cases hv : get_latest_version_info w.finalUrl with
  | none => simp [dTerminals, isTerminalD, List.filter]
  | some pv =>
    obtain ⟨u, v⟩ := pv
    by_cases hc : cancelObserved w.cancelIdx 0 = true
    · simp [hc, dTerminals, isTerminalD, List.filter]
    · have hnt := dlLoop_no_terminal w.cancelIdx w.errIdx w.contentLength w.chunks 1 0
      simp only [Bool.not_eq_true] at hc
      simp only [hc, Option.isSome_some, Bool.true_and, Bool.false_eq_true, if_false]
      cases hr : (download_discord w.cancelIdx w.errIdx w.contentLength w.chunks).2.1 with
      | some sz =>
        by_cases hf : cancelObserved w.cancelIdx (w.chunks.length + 1) = true <;>
          simp_all [download_discord, dTerminals, isTerminalD, List.filter_append,
            List.filter]
      | none =>
        by_cases hf : cancelObserved w.cancelIdx (w.chunks.length + 1) = true <;>
          simp_all [download_discord, dTerminals, isTerminalD, List.filter_append,
            List.filter]

/-! ## Claim C5 — cancellation and partial files -/

/-- C5 counterexample: the user cancels during an 8-byte two-chunk
download (the flag becomes observable at the second boundary), but the
fetch of the second chunk raises before that boundary's flag check.  The
`except` handlers of `download_discord` (lines 190-195) return `None`
WITHOUT deleting the partial file, and `run` then takes the
`elif self.should_cancel` branch: a CANCELLED completion is emitted while
a truncated 4-of-8-byte file remains on disk. -/
theorem claim_C5_counterexample :
    (dlRun { finalUrl := some "https://x/discord-1.2.3.tar.gz", contentLength := 8,
             chunks := [4, 4], cancelIdx := some 2, errIdx := some 2 }).1 = some 4
    ∧ DEvent.completedEvt false none "CANCELLED"
        ∈ (dlRun { finalUrl := some "https://x/discord-1.2.3.tar.gz", contentLength := 8,
                   chunks := [4, 4], cancelIdx := some 2, errIdx := some 2 }).2
    ∧ (4 : Nat) < ([4, 4] : List Nat).sum := by decide

/-- C5 amended: on a transfer that raises no exception, a cancellation
issued during the download (the flag becomes observable at some point
`j ≥ 1`) leaves on disk either no file at all or the complete file of all
body bytes — never a truncated one; and when the flag is observed at a
chunk boundary (`j` within the loop), the partial file is deleted and the
single terminal event is the CANCELLED completion.  When a transfer
exception preempts the flag check, the `except` handlers return without
deleting the file, so a CANCELLED completion can coexist with a truncated
file on disk. -/
theorem claim_C5 (w : DlInput) (j : Nat)
    (hc : w.cancelIdx = some j) (h1 : 1 ≤ j) (he : w.errIdx = none) :
    ((dlRun w).1 = none ∨ (dlRun w).1 = some w.chunks.sum)
    ∧ (j ≤ w.chunks.length → (get_latest_version_info w.finalUrl).isSome = true →
        (dlRun w).1 = none
        ∧ dTerminals (dlRun w).2 = [DEvent.completedEvt false none "CANCELLED"]) := by
  constructor
  · unfold dlRun
    cases hv : get_latest_version_info w.finalUrl with
    | none => left; rfl
    | some pv =>
      obtain ⟨u, v⟩ := pv
      rw [he]
      have hc0 : cancelObserved w.cancelIdx 0 = false := by
        simp [cancelObserved, hc]; omega
      have hfile := dlLoop_file w.cancelIdx w.contentLength w.chunks 1 0
      simp only [Nat.zero_add] at hfile
      simp only [hc0, Bool.false_eq_true, if_false]
      cases hr : (download_discord w.cancelIdx none w.contentLength w.chunks).2.1 with
      | some sz =>
        by_cases hf : cancelObserved w.cancelIdx (w.chunks.length + 1) = true <;>
          simpa [download_discord, hf] using hfile
      | none =>
        by_cases hf : cancelObserved w.cancelIdx (w.chunks.length + 1) = true <;>
          simpa [download_discord, hf] using hfile
  · intro hjn hsome
    cases hv : get_latest_version_info w.finalUrl with
    | none => rw [hv] at hsome; exact absurd hsome (by simp)
    | some pv =>
      obtain ⟨u, v⟩ := pv
      have hc0 : cancelObserved w.cancelIdx 0 = false := by
        simp [cancelObserved, hc]; omega
      have hloop := dlLoop_cancelled w.contentLength j w.chunks 1 0 h1 (by omega)
      have hfl : cancelObserved w.cancelIdx (w.chunks.length + 1) = true := by
        simp [cancelObserved, hc]; omega
      rw [← hc] at hloop
      have hnt := dlLoop_no_terminal w.cancelIdx none w.contentLength w.chunks 1 0
      simp only [dTerminals] at hnt
      simp [dlRun, hv, he, hc0, download_discord, hloop.1, hloop.2, hfl, dTerminals,
        isTerminalD, List.filter_append, List.filter, hnt]

/-- C5 witness: cancellation observed at the second chunk boundary of an
exception-free two-chunk download. -/
theorem claim_C5_witness :
    (dlRun { finalUrl := some "https://x/discord-1.2.3.tar.gz", contentLength := 8,
             chunks := [4, 4], cancelIdx := some 2, errIdx := none }).1 = none
    ∧ dTerminals (dlRun { finalUrl := some "https://x/discord-1.2.3.tar.gz",
                          contentLength := 8, chunks := [4, 4], cancelIdx := some 2,
                          errIdx := none }).2
        = [DEvent.completedEvt false none "CANCELLED"] :=
  (claim_C5 _ 2 rfl (by decide) rfl).2 (by decide) (by decide)

/-! ## Claim C7 — downloaded size versus content length -/

/-- C7 counterexample: the server reports a content length of 100 but the
body stream delivers 50 bytes; the code only checks that the file is
nonempty, so it emits a success completion for a 50-byte file that does
not match the reported content length. -/
theorem claim_C7_counterexample :
    (dlRun { finalUrl := some "https://x/discord-1.2.3.tar.gz", contentLength := 100,
             chunks := [50], cancelIdx := none, errIdx := none }).1 = some 50
    ∧ DEvent.completedEvt true (some 50) ""
        ∈ (dlRun { finalUrl := some "https://x/discord-1.2.3.tar.gz",
                   contentLength := 100, chunks := [50], cancelIdx := none,
                   errIdx := none }).2
    ∧ (50 : Nat) ≠ 100 := by decide

/-- C7 amended: a success completion carries exactly the number of body
bytes received and written (which is positive, and is the size of the file
left on disk); the code never compares it with the reported content
length, so equality with the content length holds only when the transport
delivers the full body. -/
theorem claim_C7 (w : DlInput) (sz : Nat) (msg : String)
    (h : DEvent.completedEvt true (some sz) msg ∈ (dlRun w).2) :
    sz = w.chunks.sum ∧ 0 < sz ∧ (dlRun w).1 = some sz := by
  have hnt := dlLoop_no_terminal w.cancelIdx w.errIdx w.contentLength w.chunks 1 0
  have hmemloop : DEvent.completedEvt true (some sz) msg
      ∉ (dlLoop w.cancelIdx w.errIdx w.contentLength w.chunks 1 0).2.2 := by
    intro hmem
    have := List.filter_eq_nil_iff.mp hnt _ hmem
    simp [isTerminalD] at this
  cases hv : get_latest_version_info w.finalUrl with
  | none =>
    have heq : (dlRun w).2 = [DEvent.progressEvt 5,
        DEvent.completedEvt false none "No se pudo detectar la última versión de Discord"] := by
      simp [dlRun, hv]
    rw [heq] at h
    simp at h
  | some pv =>
    obtain ⟨u, v⟩ := pv
    by_cases hc : cancelObserved w.cancelIdx 0 = true
    · have heq : (dlRun w).2 = [DEvent.progressEvt 5, DEvent.versionEvt v] := by
        simp [dlRun, hv, hc]
      rw [heq] at h
      simp at h
    · simp only [Bool.not_eq_true] at hc
      cases hr : (dlLoop w.cancelIdx w.errIdx w.contentLength w.chunks 1 0).2.1 with
      | some sz' =>
        by_cases hf : cancelObserved w.cancelIdx (w.chunks.length + 1) = true
        · have heq : (dlRun w).2
              = [DEvent.progressEvt 5, DEvent.versionEvt v]
                ++ (DEvent.progressEvt 10
                    :: (dlLoop w.cancelIdx w.errIdx w.contentLength w.chunks 1 0).2.2)
                ++ [DEvent.completedEvt false none "CANCELLED"] := by
            simp [dlRun, hv, hc, download_discord, hr, hf]
          rw [heq] at h
          simp [hmemloop] at h
        · have heq : (dlRun w).2
              = [DEvent.progressEvt 5, DEvent.versionEvt v]
                ++ (DEvent.progressEvt 10
                    :: (dlLoop w.cancelIdx w.errIdx w.contentLength w.chunks 1 0).2.2)
                ++ [DEvent.progressEvt 100, DEvent.completedEvt true (some sz') ""] := by
            simp [dlRun, hv, hc, download_discord, hr, hf]
          have heq1 : (dlRun w).1
              = (dlLoop w.cancelIdx w.errIdx w.contentLength w.chunks 1 0).1 := by
            simp [dlRun, hv, hc, download_discord, hr, hf]
          rw [heq] at h
          simp [hmemloop] at h
          obtain ⟨rfl, rfl⟩ := h
          obtain ⟨h1, h2, h3⟩ :=
            dlLoop_ret w.cancelIdx w.errIdx w.contentLength w.chunks 1 0 sz hr
          refine ⟨by simpa using h1, h2, ?_⟩
          rw [heq1, h3]
      | none =>
        by_cases hf : cancelObserved w.cancelIdx (w.chunks.length + 1) = true
        · have heq : (dlRun w).2
              = [DEvent.progressEvt 5, DEvent.versionEvt v]
                ++ (DEvent.progressEvt 10
                    :: (dlLoop w.cancelIdx w.errIdx w.contentLength w.chunks 1 0).2.2)
                ++ [DEvent.completedEvt false none "CANCELLED"] := by
            simp [dlRun, hv, hc, download_discord, hr, hf]
          rw [heq] at h
          simp [hmemloop] at h
        · have heq : (dlRun w).2
              = [DEvent.progressEvt 5, DEvent.versionEvt v]
                ++ (DEvent.progressEvt 10
                    :: (dlLoop w.cancelIdx w.errIdx w.contentLength w.chunks 1 0).2.2)
                ++ [DEvent.completedEvt false none "Error al descargar el archivo"] := by
            simp [dlRun, hv, hc, download_discord, hr, hf]
          rw [heq] at h
          simp [hmemloop] at h

/-- C7 witness: a fully delivered 8-byte body. -/
theorem claim_C7_witness :
    (8 : Nat) = ([8] : List Nat).sum ∧ 0 < 8
    ∧ (dlRun { finalUrl := some "https://x/discord-1.2.3.tar.gz", contentLength := 8,
               chunks := [8], cancelIdx := none, errIdx := none }).1 = some 8 :=
  claim_C7 { finalUrl := some "https://x/discord-1.2.3.tar.gz", contentLength := 8,
             chunks := [8], cancelIdx := none, errIdx := none } 8 "" (by decide)

/-! ## Regex matcher lemmas for claim C4 -/

theorem begins_iff : ∀ (p s : List Char), begins p s = true ↔ ∃ t, s = p ++ t
  | [], s => by simp [begins]
  | a :: as, [] => by
    simp [begins]
  | a :: as, b :: bs => by
    show (a == b && begins as bs) = true ↔ _
    rw [Bool.and_eq_true, beq_iff_eq, begins_iff as bs]
    constructor
    · rintro ⟨rfl, t, rfl⟩; exact ⟨t, rfl⟩
    · rintro ⟨t, ht⟩
      rw [List.cons_append] at ht
      injection ht with h1 h2
      exact ⟨h1.symm, t, h2⟩

theorem tryLens_sound (s : List Char) :
    ∀ (n : Nat) (g : List Char), tryLens s n = some g →
      g ≠ [] ∧ g.all isVchar = true ∧ ∃ b, s = g ++ suf ++ b := by
  intro n
  induction n with
  | zero => intro g h; simp [tryLens] at h
  | succ n ih =>
    intro g h
    simp only [tryLens] at h
    by_cases hc : ((s.take (n + 1)).all isVchar && begins suf (s.drop (n + 1))) = true
    · rw [if_pos hc] at h
      obtain ⟨hall, hsuf⟩ : (s.take (n + 1)).all isVchar = true
          ∧ begins suf (s.drop (n + 1)) = true := by simpa using hc
      cases h
      obtain ⟨b, hb⟩ := (begins_iff suf (s.drop (n + 1))).mp hsuf
      refine ⟨?_, hall, b, ?_⟩
      · intro hnil
        have hs : s = [] := by
          rcases List.take_eq_nil_iff.mp hnil with h | h
          · omega
          · exact h
        rw [hs] at hb
        simp [suf] at hb
      · conv_lhs => rw [← List.take_append_drop (n + 1) s]
        rw [hb, List.append_assoc]
    · rw [if_neg hc] at h
      exact ih g h

theorem tryLens_some (s : List Char) :
    ∀ (n L : Nat), 1 ≤ L → L ≤ n → (s.take L).all isVchar = true →
      begins suf (s.drop L) = true → (tryLens s n).isSome = true := by
  intro n
  induction n with
  | zero => intro L h1 h2 _ _; omega
  | succ n ih =>
    intro L h1 h2 hall hsuf
    simp only [tryLens]
    by_cases hc : ((s.take (n + 1)).all isVchar && begins suf (s.drop (n + 1))) = true
    · rw [if_pos hc]; rfl
    · rw [if_neg hc]
      have hLn : L ≤ n := by
        rcases Nat.lt_or_ge L (n + 1) with h | h
        · omega
        · have hL : L = n + 1 := by omega
          subst hL
          exact absurd (by simp [hall, hsuf]) hc
      exact ih L h1 hLn hall hsuf

theorem takeWhile_length_ge (p : Char → Bool) :
    ∀ (g r : List Char), g.all p = true → g.length ≤ ((g ++ r).takeWhile p).length := by
  intro g
  induction g with
  | nil => intro r _; simp
  | cons a as ih =>
    intro r hall
    obtain ⟨ha, has⟩ : p a = true ∧ as.all p = true := by simpa using hall
    simp only [List.cons_append, List.takeWhile_cons, ha, if_true, List.length_cons]
    exact Nat.succ_le_succ (ih r has)

theorem matchVer_some (g b : List Char) (hg : g ≠ []) (hall : g.all isVchar = true) :
    (matchVer (g ++ suf ++ b)).isSome = true := by
  have hL1 : 1 ≤ g.length := by
    cases g with
    | nil => exact absurd rfl hg
    | cons x xs => simp
  apply tryLens_some (g ++ suf ++ b) _ g.length hL1
  · have h := takeWhile_length_ge isVchar g (suf ++ b) hall
    simpa [List.append_assoc] using h
  · rw [List.append_assoc, List.take_left]
    exact hall
  · rw [List.append_assoc, List.drop_left]
    exact (begins_iff suf (suf ++ b)).mpr ⟨b, rfl⟩

theorem searchDiscordVer_sound :
    ∀ (l g : List Char), searchDiscordVer l = some g →
      g ≠ [] ∧ g.all isVchar = true ∧ ∃ a b, l = a ++ pat ++ g ++ suf ++ b := by
  intro l
  induction l with
  | nil => intro g h; simp [searchDiscordVer] at h
  | cons c rest ih =>
    intro g h
    simp only [searchDiscordVer] at h
    by_cases hp : begins pat (c :: rest) = true
    · rw [if_pos hp] at h
      cases hm : matchVer ((c :: rest).drop pat.length) with
      | some gm =>
        rw [hm] at h
        cases h
        obtain ⟨t, ht⟩ := (begins_iff pat (c :: rest)).mp hp
        have hdrop : (c :: rest).drop pat.length = t := by
          rw [ht, List.drop_left]
        rw [hdrop] at hm
        obtain ⟨hne, hall, b, hb⟩ := tryLens_sound t _ g hm
        refine ⟨hne, hall, [], b, ?_⟩
        rw [ht, hb]
        simp [List.append_assoc]
      | none =>
        rw [hm] at h
        obtain ⟨hne, hall, a, b, hb⟩ := ih g h
        refine ⟨hne, hall, c :: a, b, ?_⟩
        rw [hb]
        simp
    · rw [if_neg hp] at h
      obtain ⟨hne, hall, a, b, hb⟩ := ih g h
      refine ⟨hne, hall, c :: a, b, ?_⟩
      rw [hb]
      simp

theorem searchDiscordVer_some :
    ∀ (a l g b : List Char), l = a ++ pat ++ g ++ suf ++ b → g ≠ [] →
      g.all isVchar = true → (searchDiscordVer l).isSome = true := by
  intro a
  induction a with
  | nil =>
    intro l g b hl hg hall
    subst hl
    have hform : (([] : List Char) ++ pat ++ g ++ suf ++ b) = pat ++ (g ++ (suf ++ b)) := by
      simp [List.append_assoc]
    rw [hform]
    show (searchDiscordVer
      ('d' :: 'i' :: 's' :: 'c' :: 'o' :: 'r' :: 'd' :: '-' :: (g ++ (suf ++ b)))).isSome
        = true
    have hbeg : begins pat
        ('d' :: 'i' :: 's' :: 'c' :: 'o' :: 'r' :: 'd' :: '-' :: (g ++ (suf ++ b))) = true := rfl
    have hdrop : ('d' :: 'i' :: 's' :: 'c' :: 'o' :: 'r' :: 'd' :: '-'
        :: (g ++ (suf ++ b))).drop pat.length = g ++ (suf ++ b) := rfl
    simp only [searchDiscordVer, hbeg, if_true, hdrop]
    cases hm : matchVer (g ++ (suf ++ b)) with
    | some gm => simp
    | none =>
      exfalso
      have h := matchVer_some g b hg hall
      rw [List.append_assoc] at h
      rw [hm] at h
      simp at h
  | cons ch a2 ih =>
    intro l g b hl hg hall
    subst hl
    have hform : ((ch :: a2) ++ pat ++ g ++ suf ++ b)
        = ch :: (a2 ++ pat ++ g ++ suf ++ b) := by simp
    rw [hform]
    simp only [searchDiscordVer]
    by_cases hp : begins pat (ch :: (a2 ++ pat ++ g ++ suf ++ b)) = true
    · rw [if_pos hp]
      cases hm : matchVer ((ch :: (a2 ++ pat ++ g ++ suf ++ b)).drop pat.length) with
      | some gm => simp
      | none => exact ih _ g b rfl hg hall
    · rw [if_neg hp]
      exact ih _ g b rfl hg hall

/-! ## Claim C4 — version extraction -/

/-- C4 counterexample: a final URL whose filename is `discord-1..tar.gz`.
The code regex `discord-([0-9.]+)\.tar\.gz` matches with the group `1.`
(backtracking inside the class `[0-9.]`), so resolution succeeds and
returns the version tag `1.`, which does not match the claimed invariant
`[0-9]+(\.[0-9]+)*` — the URL embeds no digits-separated-by-dots token yet
resolution does not fail. -/
theorem claim_C4_counterexample :
    get_latest_version_info (some "https://dl.discordapp.net/apps/linux/discord-1..tar.gz")
      = some ("https://dl.discordapp.net/apps/linux/discord-1..tar.gz", "1.")
    ∧ versionWF "1." = false := by decide

/-- C4 amended: resolution succeeds exactly when the final URL contains
`discord-` followed by a nonempty run over the class `[0-9.]` followed by
`.tar.gz`; the returned tag is a nonempty string of digits and dots, but it
can contain leading, trailing or doubled dots, so it need not match the
anchored pattern `[0-9]+(\.[0-9]+)*`.  When no such token exists (or the
HEAD request fails) resolution fails with no fallback. -/
theorem get_latest_some_eq (url : String) :
    get_latest_version_info (some url)
      = match searchDiscordVer url.toList with
        | some g => some (url, String.mk g)
        | none => none := rfl

theorem claim_C4 (url : String) :
    (∀ u v, get_latest_version_info (some url) = some (u, v) →
        u = url ∧ v.toList ≠ [] ∧ v.toList.all isVchar = true
        ∧ ∃ a b, url.toList = a ++ pat ++ v.toList ++ suf ++ b)
    ∧ ((∃ a g b, url.toList = a ++ pat ++ g ++ suf ++ b
          ∧ g ≠ [] ∧ g.all isVchar = true) →
        (get_latest_version_info (some url)).isSome = true) := by
  constructor
  · intro u v h
    rw [get_latest_some_eq] at h
    cases hs : searchDiscordVer url.toList with
    | none =>
      rw [hs] at h
      exact Option.noConfusion h
    | some g =>
      rw [hs] at h
      obtain ⟨h1, h2⟩ : url = u ∧ String.mk g = v := by
        have hin := Option.some_injective _ h
        exact ⟨congrArg Prod.fst hin, congrArg Prod.snd hin⟩
      obtain ⟨hne, hall, a, b, hb⟩ := searchDiscordVer_sound url.toList g hs
      subst h1
      subst h2
      exact ⟨rfl, hne, hall, a, b, hb⟩
  · rintro ⟨a, g, b, hurl, hg, hall⟩
    rw [get_latest_some_eq]
    have h := searchDiscordVer_some a url.toList g b hurl hg hall
    cases hs : searchDiscordVer url.toList with
    | none => rw [hs] at h; exact absurd h (by simp)
    | some g2 => rfl

/-- C4 witness: a well-formed versioned URL resolves to its token, and the
token decomposition makes resolution succeed. -/
theorem claim_C4_witness :
    ("discord-0.0.1.tar.gz" = "discord-0.0.1.tar.gz"
      ∧ "0.0.1".toList ≠ [] ∧ "0.0.1".toList.all isVchar = true
      ∧ ∃ a b, "discord-0.0.1.tar.gz".toList = a ++ pat ++ "0.0.1".toList ++ suf ++ b)
    ∧ (get_latest_version_info (some "discord-0.0.1.tar.gz")).isSome = true :=
  ⟨(claim_C4 "discord-0.0.1.tar.gz").1 "discord-0.0.1.tar.gz" "0.0.1" (by decide),
   (claim_C4 "discord-0.0.1.tar.gz").2
     ⟨[], "0.0.1".toList, [], by decide, by decide, by decide⟩⟩

end DiscordInstall
